import Mathlib

/-!
Verification of the aggregation core of the OpenAlex API analytics worker
(`src/index.ts`, `src/queries.ts`).

JavaScript numbers are modelled as exact rationals (`ℚ`); JavaScript's
`Math.round` is modelled as `⌊q + 1/2⌋` (round half toward positive
infinity, which is `Math.round`'s behaviour).  The JS `Map` used by the
accumulation loops is modelled as an insertion-ordered association list,
and the (stable) `Array.prototype.sort` as Mathlib's stable
`List.insertionSort`.  External effects (the Analytics Engine store, the
D1 identity table) are modelled as oracles passed in as arguments.
-/

namespace OA

/-- JS `Math.round`: round half up (toward `+∞`). -/
def jsRound (q : ℚ) : ℤ := ⌊q + 1/2⌋

/-- Rounding to 2 decimal places as the source writes it:
`Math.round(q * 100) / 100`. -/
def round2 (q : ℚ) : ℚ := (jsRound (q * 100) : ℚ) / 100

/-- Percentage rounding as the source writes it:
`Math.round(q * 10000) / 100`. -/
def roundPct (q : ℚ) : ℚ := (jsRound (q * 10000) : ℚ) / 100

/-- Lexicographic comparison of character lists by code point; this is the
string comparison the store applies to `index1 >= '...'` / `index1 < '...'`
predicates (byte order and code-point order agree on the ASCII keys used
here). -/
def lexLt : List Char → List Char → Bool
  | [], [] => false
  | [], _ :: _ => true
  | _ :: _, [] => false
  | a :: as, b :: bs =>
    if a.val < b.val then true
    else if b.val < a.val then false
    else lexLt as bs

/-- Strict lexicographic order on strings. -/
def strLt (a b : String) : Bool := lexLt a.data b.data

/-- Non-strict lexicographic order on strings. -/
def strLe (a b : String) : Bool := !(strLt b a)

/-- JS `parseInt(s, 10)`: skip leading spaces, optional sign, then take the
longest leading run of decimal digits; `none` models `NaN` (no digits). -/
def digitsVal : List Char → Nat → Nat
  | [], acc => acc
  | c :: cs, acc => digitsVal cs (acc * 10 + (c.toNat - 48))

/-- Numeric value of a digit string (the behaviour of `parseInt` on an
all-digits argument, e.g. the capture group of a bucket regex). -/
def jsParseInt (s : String) : Option ℤ :=
  let chars := s.data.dropWhile (fun c => c = ' ')
  match chars with
  | '-' :: cs =>
    let ds := cs.takeWhile (fun c => c.isDigit)
    if ds.isEmpty then none else some (-(digitsVal ds 0 : ℤ))
  | '+' :: cs =>
    let ds := cs.takeWhile (fun c => c.isDigit)
    if ds.isEmpty then none else some (digitsVal ds 0 : ℤ)
  | cs =>
    let ds := cs.takeWhile (fun c => c.isDigit)
    if ds.isEmpty then none else some (digitsVal ds 0 : ℤ)

/-- JS `array.slice(0, end)` where `end` is the (possibly `NaN`) parsed
`limit`: `NaN` converts to `0` (empty result), a negative `end` counts from
the end of the array, and an `end` past the length is clamped. -/
def jsSlice {α : Type} (limit : Option ℤ) (l : List α) : List α :=
  match limit with
  | none => []
  | some n => if n < 0 then l.take (l.length - (-n).toNat) else l.take n.toNat

/-! ### The JS `Map` of the accumulation loops

Modelled as an insertion-ordered association list with unique keys:
`get` finds the entry, `set` overwrites in place (preserving position) or
appends a fresh entry at the end, exactly as a JS `Map` iterates. -/

/-- JS `Map.get`. -/
def mapGet {β : Type} : List (String × β) → String → Option β
  | [], _ => none
  | p :: ps, k => if p.1 = k then some p.2 else mapGet ps k

/-- JS `Map.set`. -/
def mapSet {β : Type} : List (String × β) → String → β → List (String × β)
  | [], k, v => [(k, v)]
  | p :: ps, k, v => if p.1 = k then (k, v) :: ps else p :: mapSet ps k v

/-! ### `getTopUsers` (src/queries.ts lines 45-132) -/

/-- One row of the `getTopUsers` store query (grouped by `blob1, double2`);
numeric fields already coerced by `Number(...)` as in the source. -/
structure UserRow where
  apiKey : String
  statusCode : Nat
  requestCount : ℚ
  avgResponseTime : ℚ
  successCount : ℚ
deriving DecidableEq, Inhabited

/-- The per-key accumulator of `getTopUsers` (the `userMap` values). -/
structure UserStats where
  totalRequests : ℚ
  successfulRequests : ℚ
  totalResponseTime : ℚ
deriving DecidableEq, Inhabited

/-- One iteration of the `getTopUsers` accumulation loop
(src/queries.ts lines 79-98). -/
def accumUser (m : List (String × UserStats)) (r : UserRow) :
    List (String × UserStats) :=
  match mapGet m r.apiKey with
  | some s =>
    mapSet m r.apiKey
      { totalRequests := s.totalRequests + r.requestCount
        successfulRequests := s.successfulRequests + r.successCount
        totalResponseTime := s.totalResponseTime + r.avgResponseTime * r.requestCount }
  | none =>
    mapSet m r.apiKey
      { totalRequests := r.requestCount
        successfulRequests := r.successCount
        totalResponseTime := r.avgResponseTime * r.requestCount }

/-- The whole accumulation loop of `getTopUsers`. -/
def aggregateUsers (results : List UserRow) : List (String × UserStats) :=
  results.foldl accumUser []

/-- The comparator `(a, b) => b[1].totalRequests - a[1].totalRequests`
(descending by raw total); JS `sort` is stable, so the stable
`insertionSort` over this total preorder is the faithful model. -/
def userGe (a b : String × UserStats) : Prop :=
  b.2.totalRequests ≤ a.2.totalRequests

instance : DecidableRel userGe := fun a b =>
  inferInstanceAs (Decidable (b.2.totalRequests ≤ a.2.totalRequests))

/-- `Array.from(userMap.entries()).sort(...)` of `getTopUsers`. -/
def sortUsers (m : List (String × UserStats)) : List (String × UserStats) :=
  m.insertionSort userGe

/-- An identity record of the D1 `api_keys` table. -/
structure Identity where
  name : String
  email : String
  organization : String
deriving DecidableEq, Inhabited

/-- The enriched output row of `getTopUsers`. -/
structure TopUser where
  apiKey : String
  name : Option String
  email : Option String
  organization : Option String
  requestCount : ℤ
  requestsPerSecond : ℚ
  avgResponseTime : ℚ
  successRate : ℚ
deriving DecidableEq, Inhabited

/-- JS `x || null` on a string field: the empty string is falsy. -/
def orNull (s : String) : Option String := if s = "" then none else some s

/-- The body of the enrichment/finalisation loop of `getTopUsers`
(src/queries.ts lines 108-125): one D1 lookup, then boundary rounding.
`lookup` models `env.DB... .first()`, returning `none` when no row is on
file. -/
def finalizeUser (lookup : String → Option Identity)
    (periodDurationSeconds : ℚ) (p : String × UserStats) : TopUser :=
  let userInfo := lookup p.1
  { apiKey := p.1
    name := match userInfo with | some u => orNull u.name | none => none
    email := match userInfo with | some u => orNull u.email | none => none
    organization := match userInfo with | some u => orNull u.organization | none => none
    requestCount := jsRound p.2.totalRequests
    requestsPerSecond := round2 (p.2.totalRequests / periodDurationSeconds)
    avgResponseTime := round2 (p.2.totalResponseTime / p.2.totalRequests)
    successRate := roundPct (p.2.successfulRequests / p.2.totalRequests) }

/-- The enrichment loop of `getTopUsers` (src/queries.ts lines 106-125),
instrumented to also return the list of API keys it passed to the D1
lookup, so that "enrichment only runs on the truncated list" is statable. -/
def enrichLoop (lookup : String → Option Identity) (periodDurationSeconds : ℚ) :
    List (String × UserStats) → List TopUser × List String
  | [] => ([], [])
  | p :: ps =>
    let rest := enrichLoop lookup periodDurationSeconds ps
    (finalizeUser lookup periodDurationSeconds p :: rest.1, p.1 :: rest.2)

/-- The in-process part of `getTopUsers`: accumulate, sort descending by
raw total, truncate to `limit`, then enrich/round.  `limit = none` models
a `NaN` limit (`parseInt` failure). -/
def getTopUsersPure (lookup : String → Option Identity)
    (periodDurationSeconds : ℚ) (limit : Option ℤ)
    (results : List UserRow) : List TopUser :=
  (enrichLoop lookup periodDurationSeconds
    (jsSlice limit (sortUsers (aggregateUsers results)))).1

/-- The D1 lookups issued by `getTopUsers` (keys, in loop order). -/
def lookupCalls (lookup : String → Option Identity)
    (periodDurationSeconds : ℚ) (limit : Option ℤ)
    (results : List UserRow) : List String :=
  (enrichLoop lookup periodDurationSeconds
    (jsSlice limit (sortUsers (aggregateUsers results)))).2

/-! ### `getTopAnonymousUsers` (src/queries.ts lines 140-223) -/

/-- One row of the `getTopAnonymousUsers` store query
(grouped by `index1, blob2, double2`). -/
structure AnonRow where
  indexKey : String
  ipSample : String
  statusCode : Nat
  requestCount : ℚ
  avgResponseTime : ℚ
  successCount : ℚ
deriving DecidableEq, Inhabited

/-- The per-bucket accumulator of `getTopAnonymousUsers`
(the `bucketMap` values). -/
structure AnonStats where
  bucket : String
  ipSample : Option String
  requestCount : ℚ
  totalResponseTime : ℚ
  successfulRequests : ℚ
deriving DecidableEq, Inhabited

/-- The regex `/^anon_(\d+)_/` applied to an index key: the capture group
(the maximal nonempty digit run after `anon_`, which must be followed by
`_`), or `none` when the key does not match. -/
def matchAnonDigits : List Char → Option (List Char)
  | 'a' :: 'n' :: 'o' :: 'n' :: '_' :: rest =>
    let ds := rest.takeWhile (fun c => c.isDigit)
    if ds.isEmpty then none
    else
      match rest.dropWhile (fun c => c.isDigit) with
      | '_' :: _ => some ds
      | _ => none
  | _ => none

/-- `result.indexKey.match(/^anon_(\d+)_/)`, returning `match[1]`. -/
def matchAnonKey (key : String) : Option String :=
  (matchAnonDigits key.data).map (fun ds => String.mk ds)

/-- One iteration of the `getTopAnonymousUsers` accumulation loop
(src/queries.ts lines 177-203); non-matching keys are skipped
(`if (!match) continue`), and `ipSample` is set only when the bucket entry
is first created (`result.ipSample || null`). -/
def accumAnon (m : List (String × AnonStats)) (r : AnonRow) :
    List (String × AnonStats) :=
  match matchAnonKey r.indexKey with
  | none => m
  | some ds =>
    let bucket := "anon_" ++ ds
    match mapGet m bucket with
    | some s =>
      mapSet m bucket
        { s with
          requestCount := s.requestCount + r.requestCount
          totalResponseTime := s.totalResponseTime + r.avgResponseTime * r.requestCount
          successfulRequests := s.successfulRequests + r.successCount }
    | none =>
      mapSet m bucket
        { bucket := bucket
          ipSample := orNull r.ipSample
          requestCount := r.requestCount
          totalResponseTime := r.avgResponseTime * r.requestCount
          successfulRequests := r.successCount }

/-- The whole accumulation loop of `getTopAnonymousUsers`. -/
def aggregateAnon (results : List AnonRow) : List (String × AnonStats) :=
  results.foldl accumAnon []

/-- The output row of `getTopAnonymousUsers`. -/
structure TopAnonymousUser where
  bucket : String
  ipSample : Option String
  requestCount : ℤ
  requestsPerSecond : ℚ
  avgResponseTime : ℚ
  successRate : ℚ
deriving DecidableEq, Inhabited

/-- The final-metrics map of `getTopAnonymousUsers`
(src/queries.ts lines 207-214). -/
def finalizeAnon (periodDurationSeconds : ℚ) (s : AnonStats) : TopAnonymousUser :=
  { bucket := s.bucket
    ipSample := s.ipSample
    requestCount := jsRound s.requestCount
    requestsPerSecond := round2 (s.requestCount / periodDurationSeconds)
    avgResponseTime := round2 (s.totalResponseTime / s.requestCount)
    successRate := roundPct (s.successfulRequests / s.requestCount) }

/-- The comparator `(a, b) => b.requestCount - a.requestCount` applied by
`getTopAnonymousUsers` after the final-metrics map (it sorts on the
already-rounded `requestCount`). -/
def anonGe (a b : TopAnonymousUser) : Prop := b.requestCount ≤ a.requestCount

instance : DecidableRel anonGe := fun a b =>
  inferInstanceAs (Decidable (b.requestCount ≤ a.requestCount))

/-- The in-process part of `getTopAnonymousUsers`: accumulate by bucket,
map to final metrics, sort descending by (rounded) request count,
truncate. -/
def getTopAnonymousUsersPure (periodDurationSeconds : ℚ) (limit : Option ℤ)
    (results : List AnonRow) : List TopAnonymousUser :=
  jsSlice limit
    (((aggregateAnon results).map (fun p => finalizeAnon periodDurationSeconds p.2)).insertionSort anonGe)

/-! ### Bucket key codec (src/queries.ts lines 356-365, 400-411, …)

Every bucket-scoped query validates the caller-supplied bucket with
`/^anon_(\d+)$/`, throws `Invalid bucket format` on mismatch, and
otherwise builds the half-open key range
`[anon_{n}_, anon_{n+1}_)` from `parseInt` of the capture group. -/

/-- The regex `/^anon_(\d+)$/` followed by `parseInt` of the capture
group: the numeric bucket id, or `none` when the parameter is malformed. -/
def parseBucketNum (s : String) : Option Nat :=
  match s.data with
  | 'a' :: 'n' :: 'o' :: 'n' :: '_' :: rest =>
    if rest.isEmpty then none
    else if rest.all (fun c => c.isDigit) then some (digitsVal rest 0)
    else none
  | _ => none

/-- The pair `(prefix, prefixEnd) = (anon_{n}_, anon_{n+1}_)` built by the
bucket-scoped queries. -/
def bucketRange (bucketNum : Nat) : String × String :=
  ("anon_" ++ toString bucketNum ++ "_", "anon_" ++ toString (bucketNum + 1) ++ "_")

/-- The store-side predicate `index1 >= prefix AND index1 < prefixEnd`
under lexicographic string comparison. -/
def inBucketRange (bucketNum : Nat) (key : String) : Bool :=
  strLe (bucketRange bucketNum).1 key && strLt key (bucketRange bucketNum).2

/-! ### The remaining query routines reached from the router -/

/-- One row of the `getUsageTimeline` store query. -/
structure TimelineRow where
  timeBucket : String
  requestCount : ℚ
  avgResponseTime : ℚ
deriving DecidableEq, Inhabited

/-- One output point of `getUsageTimeline` (src/queries.ts lines 258-262). -/
structure TimelinePoint where
  timestamp : String
  requestCount : ℤ
  avgResponseTime : ℚ
deriving DecidableEq, Inhabited

/-- The result map of `getUsageTimeline`. -/
def timelinePoints (rows : List TimelineRow) : List TimelinePoint :=
  rows.map (fun r =>
    { timestamp := r.timeBucket
      requestCount := jsRound r.requestCount
      avgResponseTime := round2 r.avgResponseTime })

/-- One row of a status-breakdown store query. -/
structure StatusRow where
  statusCode : ℚ
  requestCount : ℚ
deriving DecidableEq, Inhabited

/-- One output entry of `getUserStatusBreakdown` /
`getAnonymousStatusBreakdown`. -/
structure StatusPoint where
  statusCode : ℚ
  requestCount : ℤ
  percentage : ℚ
deriving DecidableEq, Inhabited

/-- The result map of the status-breakdown queries
(src/queries.ts lines 292-298, 557-563). -/
def statusBreakdown (rows : List StatusRow) : List StatusPoint :=
  let total := (rows.map (fun r => r.requestCount)).sum
  rows.map (fun r =>
    { statusCode := r.statusCode
      requestCount := jsRound r.requestCount
      percentage := roundPct (r.requestCount / total) })

/-- One row of a faceted (per-status) timeline store query. -/
structure FacetRow where
  timeBucket : String
  statusCode : ℚ
  requestCount : ℚ
  avgResponseTime : ℚ
deriving DecidableEq, Inhabited

/-- One output point of `getUserTimeline` / `getAnonymousTimeline`. -/
structure FacetPoint where
  timestamp : String
  statusCode : ℚ
  requestCount : ℤ
  avgResponseTime : ℚ
deriving DecidableEq, Inhabited

/-- The result map of the faceted timeline queries
(src/queries.ts lines 336-341, 438-443). -/
def facetPoints (rows : List FacetRow) : List FacetPoint :=
  rows.map (fun r =>
    { timestamp := r.timeBucket
      statusCode := r.statusCode
      requestCount := jsRound r.requestCount
      avgResponseTime := round2 r.avgResponseTime })

/-! ### The router (`handleApiRequest`, src/index.ts lines 46-138)

The Analytics Engine is modelled as an oracle giving, per query shape,
either the row list the store would return or a `StoreQueryFailed`
message (the `executeQuery` throw).  The D1 identity table is the
`lookup` oracle.  A response records its HTTP status, its JSON body, and
how many Analytics Engine queries were issued while producing it. -/

/-- Oracle for the two external stores. -/
structure Store where
  lookup : String → Option Identity
  userRows : Except String (List UserRow)
  anonRows : Except String (List AnonRow)
  timelineRows : Except String (List TimelineRow)
  userStatusRows : Except String (List StatusRow)
  anonStatusRows : Except String (List StatusRow)
  userTimelineRows : Except String (List FacetRow)
  anonTimelineRows : Except String (List FacetRow)

/-- The request components `handleApiRequest` reads. -/
structure ApiRequest where
  pathname : String
  periodParam : Option String
  limitParam : Option String
  apiKeyParam : Option String
  bucketParam : Option String

/-- A JSON response body. -/
inductive ApiBody where
  | usersData (data : List TopUser)
  | anonsData (data : List TopAnonymousUser)
  | timelineData (data : List TimelinePoint)
  | statusData (data : List StatusPoint)
  | facetData (data : List FacetPoint)
  | errorBody (error : String) (message : Option String)
deriving DecidableEq, Inhabited

/-- An HTTP response plus the number of Analytics Engine queries issued
while producing it. -/
structure ApiResponse where
  status : Nat
  body : ApiBody
  queriesIssued : Nat
deriving DecidableEq, Inhabited

/-- `period === 'hour' ? 3600 : 86400` (computed inside each query). -/
def periodDuration (period : String) : ℚ :=
  if period = "hour" then 3600 else 86400

/-- JS `url.searchParams.get(name) || 'dflt'`: both an absent parameter
(`null`) and an empty string are falsy and fall back to the default. -/
def jsOrDefault (v : Option String) (dflt : String) : String :=
  match v with
  | none => dflt
  | some s => if s = "" then dflt else s

/-- `handleApiRequest` (src/index.ts lines 46-138): default `period`/
`limit`, reject an invalid period with 400 before anything else, then
dispatch on the pathname.  Each query routine issues exactly one
Analytics Engine query, except that the bucket-scoped routines throw
`Invalid bucket format` before querying when the `bucket` parameter does
not match `/^anon_(\d+)$/`; every thrown error is caught by the router's
catch-all, which answers 500 `Internal server error` with the thrown
message.  The `|| 'hour'` / `|| '10'` defaults and the `if (!apiKey)` /
`if (!bucket)` guards treat an empty-string parameter exactly like an
absent one (JS falsiness). -/
def handleApiRequest (store : Store) (req : ApiRequest) : ApiResponse :=
  let period := jsOrDefault req.periodParam "hour"
  let limit := jsParseInt (jsOrDefault req.limitParam "10")
  if period ≠ "hour" ∧ period ≠ "day" then
    ⟨400, .errorBody "Invalid period. Use \"hour\" or \"day\"." none, 0⟩
  else if req.pathname = "/api/top-users" then
    match store.userRows with
    | .error e => ⟨500, .errorBody "Internal server error" (some e), 1⟩
    | .ok rows =>
      ⟨200, .usersData (getTopUsersPure store.lookup (periodDuration period) limit rows), 1⟩
  else if req.pathname = "/api/top-anonymous" then
    match store.anonRows with
    | .error e => ⟨500, .errorBody "Internal server error" (some e), 1⟩
    | .ok rows =>
      ⟨200, .anonsData (getTopAnonymousUsersPure (periodDuration period) limit rows), 1⟩
  else if req.pathname = "/api/usage-timeline" then
    match store.timelineRows with
    | .error e => ⟨500, .errorBody "Internal server error" (some e), 1⟩
    | .ok rows => ⟨200, .timelineData (timelinePoints rows), 1⟩
  else if req.pathname = "/api/user-status-breakdown" then
    match req.apiKeyParam with
    | none => ⟨400, .errorBody "apiKey parameter is required" none, 0⟩
    | some a =>
      if a = "" then ⟨400, .errorBody "apiKey parameter is required" none, 0⟩
      else
        match store.userStatusRows with
        | .error e => ⟨500, .errorBody "Internal server error" (some e), 1⟩
        | .ok rows => ⟨200, .statusData (statusBreakdown rows), 1⟩
  else if req.pathname = "/api/anonymous-status-breakdown" then
    match req.bucketParam with
    | none => ⟨400, .errorBody "bucket parameter is required" none, 0⟩
    | some b =>
      if b = "" then ⟨400, .errorBody "bucket parameter is required" none, 0⟩
      else
        match parseBucketNum b with
        | none => ⟨500, .errorBody "Internal server error" (some "Invalid bucket format"), 0⟩
        | some _ =>
          match store.anonStatusRows with
          | .error e => ⟨500, .errorBody "Internal server error" (some e), 1⟩
          | .ok rows => ⟨200, .statusData (statusBreakdown rows), 1⟩
  else if req.pathname = "/api/user-timeline" then
    match req.apiKeyParam with
    | none => ⟨400, .errorBody "apiKey parameter is required" none, 0⟩
    | some a =>
      if a = "" then ⟨400, .errorBody "apiKey parameter is required" none, 0⟩
      else
        match store.userTimelineRows with
        | .error e => ⟨500, .errorBody "Internal server error" (some e), 1⟩
        | .ok rows => ⟨200, .facetData (facetPoints rows), 1⟩
  else if req.pathname = "/api/anonymous-timeline" then
    match req.bucketParam with
    | none => ⟨400, .errorBody "bucket parameter is required" none, 0⟩
    | some b =>
      if b = "" then ⟨400, .errorBody "bucket parameter is required" none, 0⟩
      else
        match parseBucketNum b with
        | none => ⟨500, .errorBody "Internal server error" (some "Invalid bucket format"), 0⟩
        | some _ =>
          match store.anonTimelineRows with
          | .error e => ⟨500, .errorBody "Internal server error" (some e), 1⟩
          | .ok rows => ⟨200, .facetData (facetPoints rows), 1⟩
  else
    ⟨404, .errorBody "API endpoint not found" none, 0⟩

/-! ### Association-list (JS `Map`) lemmas -/

theorem mapGet_mapSet_self {β : Type} (m : List (String × β)) (k : String) (v : β) :
    mapGet (mapSet m k v) k = some v := by
  induction m with
  | nil => simp [mapGet, mapSet]
  | cons p ps ih =>
    by_cases h : p.1 = k
    · simp [mapGet, mapSet, h]
    · simp [mapGet, mapSet, h, ih]

theorem mapGet_mapSet_ne {β : Type} (m : List (String × β)) {k k' : String} (v : β)
    (h : k' ≠ k) : mapGet (mapSet m k v) k' = mapGet m k' := by
  induction m with
  | nil => simp [mapGet, mapSet, Ne.symm h]
  | cons p ps ih =>
    rcases p with ⟨a, b⟩
    by_cases hp : a = k
    · subst hp
      simp [mapGet, mapSet, Ne.symm h]
    · simp [mapGet, mapSet, hp, ih]

theorem mapSet_eq_self {β : Type} {m : List (String × β)} {k : String} {v : β}
    (h : mapGet m k = some v) : mapSet m k v = m := by
  induction m with
  | nil => simp [mapGet] at h
  | cons p ps ih =>
    rcases p with ⟨a, b⟩
    by_cases hp : a = k
    · subst hp
      simp [mapGet] at h
      simp [mapSet, h]
    · simp [mapGet, hp] at h
      simp [mapSet, hp, ih h]

theorem mem_keys_mapSet {β : Type} (m : List (String × β)) (k : String) (v : β) :
    ∀ x ∈ (mapSet m k v).map Prod.fst, x = k ∨ x ∈ m.map Prod.fst := by
  induction m with
  | nil => simp [mapSet]
  | cons p ps ih =>
    rcases p with ⟨a, b⟩
    by_cases hp : a = k
    · subst hp
      intro x hx
      simp [mapSet] at hx
      rcases hx with hx | hx
      · exact Or.inl hx
      · exact Or.inr (by simp; exact Or.inr hx)
    · intro x hx
      simp [mapSet, hp] at hx
      rcases hx with hx | hx
      · exact Or.inr (by simp [hx])
      · rcases ih x (by simpa using hx) with h | h
        · exact Or.inl h
        · exact Or.inr (by simp at h ⊢; exact Or.inr h)

theorem nodup_keys_mapSet {β : Type} (m : List (String × β)) (k : String) (v : β)
    (hm : (m.map Prod.fst).Nodup) : ((mapSet m k v).map Prod.fst).Nodup := by
  induction m with
  | nil => simp [mapSet]
  | cons p ps ih =>
    rw [List.map_cons, List.nodup_cons] at hm
    by_cases hp : p.1 = k
    · simpa [mapSet, hp] using hm
    · rw [mapSet]
      simp only [if_neg hp, List.map_cons, List.nodup_cons]
      refine ⟨fun hmem => ?_, ih hm.2⟩
      rcases mem_keys_mapSet ps k v _ hmem with h | h
      · exact hp h
      · exact hm.1 h

/-! ### Characterisation of the `getTopUsers` accumulation loop -/

/-- Sum of `requestCount` over exactly the rows carrying `k`. -/
def sumWeight (k : String) (rows : List UserRow) : ℚ :=
  ((rows.filter (fun r => r.apiKey == k)).map (fun r => r.requestCount)).sum

/-- Sum of `successCount` over exactly the rows carrying `k`. -/
def sumSuccess (k : String) (rows : List UserRow) : ℚ :=
  ((rows.filter (fun r => r.apiKey == k)).map (fun r => r.successCount)).sum

/-- Sum of `avgResponseTime * requestCount` over exactly the rows
carrying `k`. -/
def sumRT (k : String) (rows : List UserRow) : ℚ :=
  ((rows.filter (fun r => r.apiKey == k)).map
    (fun r => r.avgResponseTime * r.requestCount)).sum

theorem accumUser_get_ne (m : List (String × UserStats)) (r : UserRow)
    {k : String} (h : r.apiKey ≠ k) : mapGet (accumUser m r) k = mapGet m k := by
  unfold accumUser
  cases mapGet m r.apiKey with
  | none => exact mapGet_mapSet_ne m _ (fun h' => h h'.symm)
  | some s => exact mapGet_mapSet_ne m _ (fun h' => h h'.symm)

theorem foldl_accumUser_get_some (rows : List UserRow) :
    ∀ (m : List (String × UserStats)) (k : String) (s : UserStats),
      mapGet m k = some s →
      mapGet (rows.foldl accumUser m) k =
        some { totalRequests := s.totalRequests + sumWeight k rows
               successfulRequests := s.successfulRequests + sumSuccess k rows
               totalResponseTime := s.totalResponseTime + sumRT k rows } := by
  induction rows with
  | nil => intro m k s h; simp [sumWeight, sumSuccess, sumRT, h]
  | cons r rs ih =>
    intro m k s h
    by_cases hk : r.apiKey = k
    · have hget : mapGet m r.apiKey = some s := by rw [hk]; exact h
      have hstep : mapGet (accumUser m r) k =
          some { totalRequests := s.totalRequests + r.requestCount
                 successfulRequests := s.successfulRequests + r.successCount
                 totalResponseTime := s.totalResponseTime + r.avgResponseTime * r.requestCount } := by
        unfold accumUser
        rw [hget, ← hk]
        exact mapGet_mapSet_self m _ _
      rw [List.foldl_cons, ih _ k _ hstep]
      simp [sumWeight, sumSuccess, sumRT, List.filter_cons, hk, add_assoc]
    · have hstep := accumUser_get_ne m r hk
      rw [List.foldl_cons, ih _ k s (hstep.trans h)]
      simp [sumWeight, sumSuccess, sumRT, List.filter_cons, hk]

theorem foldl_accumUser_get_none (rows : List UserRow) :
    ∀ (m : List (String × UserStats)) (k : String),
      mapGet m k = none →
      mapGet (rows.foldl accumUser m) k =
        if rows.any (fun r => r.apiKey == k) then
          some { totalRequests := sumWeight k rows
                 successfulRequests := sumSuccess k rows
                 totalResponseTime := sumRT k rows }
        else none := by
  induction rows with
  | nil => intro m k h; simpa using h
  | cons r rs ih =>
    intro m k h
    by_cases hk : r.apiKey = k
    · have hget : mapGet m r.apiKey = none := by rw [hk]; exact h
      have hstep : mapGet (accumUser m r) k =
          some { totalRequests := r.requestCount
                 successfulRequests := r.successCount
                 totalResponseTime := r.avgResponseTime * r.requestCount } := by
        unfold accumUser
        rw [hget, ← hk]
        exact mapGet_mapSet_self m _ _
      rw [List.foldl_cons,
        foldl_accumUser_get_some rs _ k _ hstep]
      simp [sumWeight, sumSuccess, sumRT, List.filter_cons, hk, List.any_cons]
    · have hstep := accumUser_get_ne m r hk
      rw [List.foldl_cons, ih _ k (hstep.trans h)]
      simp [sumWeight, sumSuccess, sumRT, List.filter_cons, hk, List.any_cons]

/-- The accumulation loop of `getTopUsers`, characterised: the entry for a
key exists iff some row carries the key, and then each accumulated field
is the corresponding sum over exactly the rows carrying that key. -/
theorem aggregateUsers_get (rows : List UserRow) (k : String) :
    mapGet (aggregateUsers rows) k =
      if rows.any (fun r => r.apiKey == k) then
        some { totalRequests := sumWeight k rows
               successfulRequests := sumSuccess k rows
               totalResponseTime := sumRT k rows }
      else none :=
  foldl_accumUser_get_none rows [] k (by simp [mapGet])

/-! ### Characterisation of the `getTopAnonymousUsers` accumulation loop -/

/-- The bucket label a raw row is merged under: `anon_{match[1]}` when the
index key matches `/^anon_(\d+)_/`, `none` when the row is skipped. -/
def anonLabel (r : AnonRow) : Option String :=
  (matchAnonKey r.indexKey).map (fun ds => "anon_" ++ ds)

/-- Sum of `requestCount` over exactly the rows merged under label `b`. -/
def anonW (b : String) (rows : List AnonRow) : ℚ :=
  ((rows.filter (fun r => anonLabel r == some b)).map (fun r => r.requestCount)).sum

/-- Sum of `avgResponseTime * requestCount` over exactly the rows merged
under label `b`. -/
def anonRT (b : String) (rows : List AnonRow) : ℚ :=
  ((rows.filter (fun r => anonLabel r == some b)).map
    (fun r => r.avgResponseTime * r.requestCount)).sum

/-- Sum of `successCount` over exactly the rows merged under label `b`. -/
def anonS (b : String) (rows : List AnonRow) : ℚ :=
  ((rows.filter (fun r => anonLabel r == some b)).map (fun r => r.successCount)).sum

theorem accumAnon_get_ne (m : List (String × AnonStats)) (r : AnonRow)
    {b : String} (h : anonLabel r ≠ some b) :
    mapGet (accumAnon m r) b = mapGet m b := by
  cases hm : matchAnonKey r.indexKey with
  | none => simp [accumAnon, hm]
  | some ds =>
    have hne : b ≠ "anon_" ++ ds := by
      intro hb
      exact h (by simp [anonLabel, hm, hb])
    cases hs : mapGet m ("anon_" ++ ds) with
    | none =>
      simp only [accumAnon, hm, hs]
      exact mapGet_mapSet_ne m _ hne
    | some s =>
      simp only [accumAnon, hm, hs]
      exact mapGet_mapSet_ne m _ hne

theorem anonLabel_eq_some {r : AnonRow} {b : String} (h : anonLabel r = some b) :
    ∃ ds, matchAnonKey r.indexKey = some ds ∧ "anon_" ++ ds = b := by
  rcases Option.map_eq_some'.mp h with ⟨ds, hds, hb⟩
  exact ⟨ds, hds, hb⟩

theorem foldl_accumAnon_get_some (rows : List AnonRow) :
    ∀ (m : List (String × AnonStats)) (b : String) (s : AnonStats),
      mapGet m b = some s →
      mapGet (rows.foldl accumAnon m) b =
        some { bucket := s.bucket
               ipSample := s.ipSample
               requestCount := s.requestCount + anonW b rows
               totalResponseTime := s.totalResponseTime + anonRT b rows
               successfulRequests := s.successfulRequests + anonS b rows } := by
  induction rows with
  | nil => intro m b s h; simp [anonW, anonRT, anonS, h]
  | cons r rs ih =>
    intro m b s h
    by_cases hl : anonLabel r = some b
    · rcases anonLabel_eq_some hl with ⟨ds, hds, hb⟩
      have hstep : mapGet (accumAnon m r) b =
          some { bucket := s.bucket
                 ipSample := s.ipSample
                 requestCount := s.requestCount + r.requestCount
                 totalResponseTime := s.totalResponseTime + r.avgResponseTime * r.requestCount
                 successfulRequests := s.successfulRequests + r.successCount } := by
        simp only [accumAnon, hds, hb, h]
        exact mapGet_mapSet_self m _ _
      rw [List.foldl_cons, ih _ b _ hstep]
      simp [anonW, anonRT, anonS, List.filter_cons, hl, add_assoc]
    · have hstep := accumAnon_get_ne m r hl
      rw [List.foldl_cons, ih _ b s (hstep.trans h)]
      have hbeq : (anonLabel r == some b) = false := by
        simpa using hl
      simp [anonW, anonRT, anonS, List.filter_cons, hbeq]

theorem foldl_accumAnon_get_none (rows : List AnonRow) :
    ∀ (m : List (String × AnonStats)) (b : String),
      mapGet m b = none →
      mapGet (rows.foldl accumAnon m) b =
        (rows.find? (fun r => anonLabel r == some b)).map (fun r0 =>
          { bucket := b
            ipSample := orNull r0.ipSample
            requestCount := anonW b rows
            totalResponseTime := anonRT b rows
            successfulRequests := anonS b rows }) := by
  induction rows with
  | nil => intro m b h; simpa using h
  | cons r rs ih =>
    intro m b h
    by_cases hl : anonLabel r = some b
    · rcases anonLabel_eq_some hl with ⟨ds, hds, hb⟩
      have hm : mapGet m ("anon_" ++ ds) = none := by rw [hb]; exact h
      have hstep : mapGet (accumAnon m r) b =
          some { bucket := b
                 ipSample := orNull r.ipSample
                 requestCount := r.requestCount
                 totalResponseTime := r.avgResponseTime * r.requestCount
                 successfulRequests := r.successCount } := by
        simp only [accumAnon, hds, hm]
        rw [← hb]
        exact mapGet_mapSet_self m ("anon_" ++ ds) _
      rw [List.foldl_cons, foldl_accumAnon_get_some rs _ b _ hstep]
      have hbeq : (anonLabel r == some b) = true := by simpa using hl
      simp [anonW, anonRT, anonS, List.filter_cons, hbeq, List.find?_cons, hl]
    · have hstep := accumAnon_get_ne m r hl
      have hbeq : (anonLabel r == some b) = false := by simpa using hl
      rw [List.foldl_cons, ih _ b (hstep.trans h)]
      simp [anonW, anonRT, anonS, List.filter_cons, hbeq, List.find?_cons]

/-- The accumulation loop of `getTopAnonymousUsers`, characterised: the
entry for a bucket label exists iff some row parses to that label; its
numeric fields are sums over exactly those rows, and its `ipSample` is
the one of the first such row in processing order. -/
theorem aggregateAnon_get (rows : List AnonRow) (b : String) :
    mapGet (aggregateAnon rows) b =
      (rows.find? (fun r => anonLabel r == some b)).map (fun r0 =>
        { bucket := b
          ipSample := orNull r0.ipSample
          requestCount := anonW b rows
          totalResponseTime := anonRT b rows
          successfulRequests := anonS b rows }) :=
  foldl_accumAnon_get_none rows [] b (by simp [mapGet])

/-! ### Membership and invariant lemmas -/

theorem mem_mapSet {β : Type} (m : List (String × β)) (k : String) (v : β) :
    ∀ p ∈ mapSet m k v, p = (k, v) ∨ p ∈ m := by
  induction m with
  | nil => simp [mapSet]
  | cons q qs ih =>
    rcases q with ⟨a, b⟩
    by_cases hq : a = k
    · subst hq
      intro p hp
      simp [mapSet] at hp
      rcases hp with hp | hp
      · exact Or.inl hp
      · exact Or.inr (by simp [hp])
    · intro p hp
      simp [mapSet, hq] at hp
      rcases hp with hp | hp
      · exact Or.inr (by simp [hp])
      · rcases ih p (by simpa using hp) with h | h
        · exact Or.inl h
        · exact Or.inr (by simp at h ⊢; exact Or.inr h)

/-- Row-level hypotheses of the success-rate bound: non-negative weight,
success weight between 0 and the weight. -/
def UserRowOk (r : UserRow) : Prop :=
  0 ≤ r.requestCount ∧ 0 ≤ r.successCount ∧ r.successCount ≤ r.requestCount

/-- The accumulator invariant: success total between 0 and the request
total. -/
def UserStatsOk (s : UserStats) : Prop :=
  0 ≤ s.successfulRequests ∧ s.successfulRequests ≤ s.totalRequests

theorem foldl_accumUser_inv (rows : List UserRow)
    (hrows : ∀ r ∈ rows, UserRowOk r) :
    ∀ (m : List (String × UserStats)), (∀ p ∈ m, UserStatsOk p.2) →
      ∀ p ∈ rows.foldl accumUser m, UserStatsOk p.2 := by
  induction rows with
  | nil => intro m hm; simpa using hm
  | cons r rs ih =>
    intro m hm
    have hr : UserRowOk r := hrows r (by simp)
    have hstep : ∀ p ∈ accumUser m r, UserStatsOk p.2 := by
      intro p hp
      unfold accumUser at hp
      cases hg : mapGet m r.apiKey with
      | some s =>
        rw [hg] at hp
        rcases mem_mapSet _ _ _ p hp with h | h
        · have hs : UserStatsOk s := by
            have : ∃ q ∈ m, q.2 = s := by
              clear hp hm
              induction m with
              | nil => simp [mapGet] at hg
              | cons q qs ihm =>
                by_cases hq : q.1 = r.apiKey
                · simp [mapGet, hq] at hg
                  exact ⟨q, by simp, hg⟩
                · simp [mapGet, hq] at hg
                  rcases ihm hg with ⟨q', hq', he⟩
                  exact ⟨q', by simp [hq'], he⟩
            rcases this with ⟨q, hq, he⟩
            exact he ▸ hm q hq
          rw [h]
          exact ⟨add_nonneg hs.1 hr.2.1, add_le_add hs.2 hr.2.2⟩
        · exact hm p h
      | none =>
        rw [hg] at hp
        rcases mem_mapSet _ _ _ p hp with h | h
        · rw [h]
          exact ⟨hr.2.1, hr.2.2⟩
        · exact hm p h
    exact ih (fun r' hr' => hrows r' (by simp [hr'])) (accumUser m r) hstep

/-- Row-level hypotheses for the anonymous loop. -/
def AnonRowOk (r : AnonRow) : Prop :=
  0 ≤ r.requestCount ∧ 0 ≤ r.successCount ∧ r.successCount ≤ r.requestCount

/-- The anonymous accumulator invariant. -/
def AnonStatsOk (s : AnonStats) : Prop :=
  0 ≤ s.successfulRequests ∧ s.successfulRequests ≤ s.requestCount

theorem foldl_accumAnon_inv (rows : List AnonRow)
    (hrows : ∀ r ∈ rows, AnonRowOk r) :
    ∀ (m : List (String × AnonStats)), (∀ p ∈ m, AnonStatsOk p.2) →
      ∀ p ∈ rows.foldl accumAnon m, AnonStatsOk p.2 := by
  induction rows with
  | nil => intro m hm; simpa using hm
  | cons r rs ih =>
    intro m hm
    have hr : AnonRowOk r := hrows r (by simp)
    have hstep : ∀ p ∈ accumAnon m r, AnonStatsOk p.2 := by
      intro p hp
      cases hmk : matchAnonKey r.indexKey with
      | none =>
        simp only [accumAnon, hmk] at hp
        exact hm p hp
      | some ds =>
        cases hg : mapGet m ("anon_" ++ ds) with
        | some s =>
          simp only [accumAnon, hmk, hg] at hp
          rcases mem_mapSet _ _ _ p hp with h | h
          · have hs : AnonStatsOk s := by
              have : ∃ q ∈ m, q.2 = s := by
                clear hp hm
                induction m with
                | nil => simp [mapGet] at hg
                | cons q qs ihm =>
                  by_cases hq : q.1 = "anon_" ++ ds
                  · simp [mapGet, hq] at hg
                    exact ⟨q, by simp, hg⟩
                  · simp [mapGet, hq] at hg
                    rcases ihm hg with ⟨q', hq', he⟩
                    exact ⟨q', by simp [hq'], he⟩
              rcases this with ⟨q, hq, he⟩
              exact he ▸ hm q hq
            rw [h]
            exact ⟨add_nonneg hs.1 hr.2.1, add_le_add hs.2 hr.2.2⟩
          · exact hm p h
        | none =>
          simp only [accumAnon, hmk, hg] at hp
          rcases mem_mapSet _ _ _ p hp with h | h
          · rw [h]
            exact ⟨hr.2.1, hr.2.2⟩
          · exact hm p h
    exact ih (fun r' hr' => hrows r' (by simp [hr'])) (accumAnon m r) hstep

/-! ### Pipeline plumbing lemmas -/

theorem enrichLoop_eq (lookup : String → Option Identity) (d : ℚ) :
    ∀ l : List (String × UserStats),
      enrichLoop lookup d l = (l.map (finalizeUser lookup d), l.map Prod.fst)
  | [] => rfl
  | p :: ps => by simp [enrichLoop, enrichLoop_eq lookup d ps]

theorem jsSlice_subset {α : Type} (limit : Option ℤ) (l : List α) :
    ∀ x ∈ jsSlice limit l, x ∈ l := by
  cases limit with
  | none => simp [jsSlice]
  | some n =>
    intro x hx
    simp only [jsSlice] at hx
    by_cases hn : n < 0
    · rw [if_pos hn] at hx
      exact List.take_subset _ _ hx
    · rw [if_neg hn] at hx
      exact List.take_subset _ _ hx

theorem sortUsers_perm (m : List (String × UserStats)) : (sortUsers m).Perm m :=
  List.perm_insertionSort _ m

theorem perm_any {α : Type} {l l' : List α} (h : l.Perm l') (p : α → Bool) :
    l.any p = l'.any p := by
  cases ha : l.any p with
  | true =>
    rw [List.any_eq_true] at ha
    rcases ha with ⟨a, hmem, hp⟩
    exact (List.any_eq_true.mpr ⟨a, h.mem_iff.mp hmem, hp⟩).symm
  | false =>
    cases hb : l'.any p with
    | false => rfl
    | true =>
      rw [List.any_eq_true] at hb
      rcases hb with ⟨a, hmem, hp⟩
      rw [List.any_eq_false] at ha
      exact absurd hp (by simpa using ha a (h.mem_iff.mpr hmem))

/-! ### Rounding bounds -/

theorem jsRound_bounds {x : ℚ} (h0 : 0 ≤ x) (h1 : x ≤ 10000) :
    0 ≤ jsRound x ∧ jsRound x ≤ 10000 := by
  constructor
  · rw [jsRound]
    exact Int.le_floor.mpr (by push_cast; linarith)
  · rw [jsRound]
    have : (⌊x + 1/2⌋ : ℤ) < 10001 := by
      rw [Int.floor_lt]
      push_cast
      linarith
    omega

theorem roundPct_bounds {x : ℚ} (h0 : 0 ≤ x) (h1 : x ≤ 1) :
    0 ≤ roundPct x ∧ roundPct x ≤ 100 := by
  have hb := jsRound_bounds (x := x * 10000) (by linarith) (by linarith)
  constructor
  · rw [roundPct]
    have : (0 : ℚ) ≤ (jsRound (x * 10000) : ℚ) := by exact_mod_cast hb.1
    linarith
  · rw [roundPct]
    have : ((jsRound (x * 10000) : ℚ)) ≤ 10000 := by exact_mod_cast hb.2
    linarith

/-- The success-rate expression of the finalisation steps is bounded when
`0 ≤ S ≤ T`. -/
theorem successRate_bounds {S T : ℚ} (h0 : 0 ≤ S) (h1 : S ≤ T) :
    0 ≤ roundPct (S / T) ∧ roundPct (S / T) ≤ 100 := by
  rcases eq_or_lt_of_le (le_trans h0 h1) with hT | hT
  · have : S = 0 := le_antisymm (by rw [← hT] at h1; exact h1) h0
    rw [this, ← hT]
    simp [roundPct, jsRound]
    norm_num
  · exact roundPct_bounds (div_nonneg h0 (le_of_lt hT))
      ((div_le_one hT).mpr h1)

/-- One-entry-per-label: the bucket map of `getTopAnonymousUsers` never
holds two entries with the same key. -/
theorem nodup_keys_aggregateAnon (rows : List AnonRow) :
    ((aggregateAnon rows).map Prod.fst).Nodup := by
  have main : ∀ (rs : List AnonRow) (m : List (String × AnonStats)),
      (m.map Prod.fst).Nodup → ((rs.foldl accumAnon m).map Prod.fst).Nodup := by
    intro rs
    induction rs with
    | nil => intro m hm; simpa using hm
    | cons r rs ih =>
      intro m hm
      rw [List.foldl_cons]
      apply ih
      cases hmk : matchAnonKey r.indexKey with
      | none => simpa [accumAnon, hmk] using hm
      | some ds =>
        cases hg : mapGet m ("anon_" ++ ds) with
        | some s =>
          simp only [accumAnon, hmk, hg]
          exact nodup_keys_mapSet m _ _ hm
        | none =>
          simp only [accumAnon, hmk, hg]
          exact nodup_keys_mapSet m _ _ hm
  exact main rows [] (by simp)

/-- Field-level reading of `aggregateAnon_get`: any entry of the bucket
map carries exactly the sums over its rows in its numeric fields. -/
theorem aggregateAnon_fields {rows : List AnonRow} {b : String} {s : AnonStats}
    (h : mapGet (aggregateAnon rows) b = some s) :
    s.requestCount = anonW b rows ∧ s.successfulRequests = anonS b rows ∧
      s.totalResponseTime = anonRT b rows := by
  rw [aggregateAnon_get] at h
  cases hf : rows.find? (fun r => anonLabel r == some b) with
  | none => rw [hf] at h; simp at h
  | some r0 =>
    rw [hf] at h
    rw [← Option.some.inj h]
    exact ⟨rfl, rfl, rfl⟩

/-! ## The claims -/

/-- Claim C2: for every bucket id `N` the range predicate built by the
bucket-scoped queries is the half-open lexicographic string range
`[anon_N_, anon_(N+1)_)`; the range for bucket 1 matches `anon_1_200` and
`anon_1_404` but matches neither `anon_10_200` nor `anon_2_200`. -/
theorem bucketRange_halfopen_correct :
    (∀ n : Nat, bucketRange n =
      ("anon_" ++ toString n ++ "_", "anon_" ++ toString (n + 1) ++ "_")) ∧
    inBucketRange 1 "anon_1_200" = true ∧
    inBucketRange 1 "anon_1_404" = true ∧
    inBucketRange 1 "anon_10_200" = false ∧
    inBucketRange 1 "anon_2_200" = false :=
  ⟨fun _ => rfl, rfl, rfl, rfl, rfl⟩

/-- Claim C4: the two rows of the end-to-end example (store-reported
average response times `1500 / 10` and `400 / 2`) aggregate to one entity
for `k1` with `totalRequests 12`, `avgResponseTime 158.33` and
`successRate 83.33`, rounding applied once at the boundary. -/
theorem topUsers_end_to_end_example :
    (150 : ℚ) = 1500 / 10 ∧ (200 : ℚ) = 400 / 2 ∧
    getTopUsersPure (fun _ => none) 3600 (some 10)
      [{ apiKey := "k1", statusCode := 200, requestCount := 10,
         avgResponseTime := 150, successCount := 10 },
       { apiKey := "k1", statusCode := 500, requestCount := 2,
         avgResponseTime := 200, successCount := 0 }] =
    [{ apiKey := "k1", name := none, email := none, organization := none,
       requestCount := 12, requestsPerSecond := 0,
       avgResponseTime := 158.33, successRate := 83.33 }] := by
  refine ⟨by norm_num, by norm_num, ?_⟩
  simp [getTopUsersPure, aggregateUsers, accumUser, mapGet, mapSet, sortUsers,
    List.insertionSort, List.orderedInsert, jsSlice, enrichLoop, finalizeUser,
    jsRound, round2, roundPct, orNull]
  norm_num

/-- Claim C10: a `limit` query parameter that does not parse as an integer
makes `parseInt` return `NaN`, so `slice(0, NaN)` empties the result:
`/api/top-users` and `/api/top-anonymous` answer 200 with an empty `data`
array, whatever the store returned. -/
theorem nan_limit_empty_result :
    jsParseInt "abc" = none ∧
    ∀ (lookup : String → Option Identity) (urows : List UserRow)
      (arows : List AnonRow) (trows : List TimelineRow)
      (usr asr : List StatusRow) (utr atr : List FacetRow),
      handleApiRequest
          ⟨lookup, .ok urows, .ok arows, .ok trows, .ok usr, .ok asr, .ok utr, .ok atr⟩
          ⟨"/api/top-users", none, some "abc", none, none⟩ =
        ⟨200, .usersData [], 1⟩ ∧
      handleApiRequest
          ⟨lookup, .ok urows, .ok arows, .ok trows, .ok usr, .ok asr, .ok utr, .ok atr⟩
          ⟨"/api/top-anonymous", none, some "abc", none, none⟩ =
        ⟨200, .anonsData [], 1⟩ :=
  ⟨rfl, fun _ _ _ _ _ _ _ _ => ⟨rfl, rfl⟩⟩

/-- A concrete anonymous raw row of bucket 1 with status 200. -/
def anonRowA : AnonRow :=
  { indexKey := "anon_1_200", ipSample := "1.1.1.1", statusCode := 200,
    requestCount := 1, avgResponseTime := 0, successCount := 1 }

/-- A concrete anonymous raw row of bucket 1 with status 404 and a
different IP sample. -/
def anonRowB : AnonRow :=
  { indexKey := "anon_1_404", ipSample := "2.2.2.2", statusCode := 404,
    requestCount := 1, avgResponseTime := 0, successCount := 0 }

/-- Claim C1 (counterexample): permuting the raw rows does not leave every
accumulated field unchanged — in the anonymous loop the `ipSample` field
is taken from the first row seen for the bucket, so swapping two rows of
the same bucket but different IP samples changes it. -/
theorem agg_order_independence_counterexample :
    [anonRowA, anonRowB].Perm [anonRowB, anonRowA] ∧
    (mapGet (aggregateAnon [anonRowA, anonRowB]) "anon_1").map AnonStats.ipSample =
      some (some "1.1.1.1") ∧
    (mapGet (aggregateAnon [anonRowB, anonRowA]) "anon_1").map AnonStats.ipSample =
      some (some "2.2.2.2") ∧
    mapGet (aggregateAnon [anonRowA, anonRowB]) "anon_1" ≠
      mapGet (aggregateAnon [anonRowB, anonRowA]) "anon_1" := by
  have hma : matchAnonKey "anon_1_200" = some "1" := rfl
  have hmb : matchAnonKey "anon_1_404" = some "1" := rfl
  have h1 : (mapGet (aggregateAnon [anonRowA, anonRowB]) "anon_1").map AnonStats.ipSample =
      some (some "1.1.1.1") := by
    simp [aggregateAnon, accumAnon, hma, hmb, mapGet, mapSet, orNull, anonRowA, anonRowB]
  have h2 : (mapGet (aggregateAnon [anonRowB, anonRowA]) "anon_1").map AnonStats.ipSample =
      some (some "2.2.2.2") := by
    simp [aggregateAnon, accumAnon, hma, hmb, mapGet, mapSet, orNull, anonRowA, anonRowB]
  refine ⟨List.Perm.swap _ _ _, h1, h2, fun he => ?_⟩
  rw [he, h2] at h1
  simp at h1

/-- Claim C1 (amended): in both accumulation loops every accumulated
numeric field of an entry equals the corresponding sum over exactly the
rows carrying that primary key, whatever the status-code spread; for the
authenticated loop the whole entry is invariant under permutation of the
rows, and for the anonymous loop the numeric fields are (the `ipSample`
field excepted, per the counterexample). -/
theorem agg_weight_conservation_amended :
    (∀ (rows : List UserRow) (k : String),
      mapGet (aggregateUsers rows) k =
        if rows.any (fun r => r.apiKey == k) then
          some { totalRequests := sumWeight k rows
                 successfulRequests := sumSuccess k rows
                 totalResponseTime := sumRT k rows }
        else none) ∧
    (∀ (rows rows' : List UserRow), rows.Perm rows' → ∀ k : String,
      mapGet (aggregateUsers rows) k = mapGet (aggregateUsers rows') k) ∧
    (∀ (rows : List AnonRow) (b : String) (s : AnonStats),
      mapGet (aggregateAnon rows) b = some s →
        s.requestCount = anonW b rows ∧ s.successfulRequests = anonS b rows ∧
          s.totalResponseTime = anonRT b rows) ∧
    (∀ (rows rows' : List AnonRow), rows.Perm rows' → ∀ (b : String) (s s' : AnonStats),
      mapGet (aggregateAnon rows) b = some s →
      mapGet (aggregateAnon rows') b = some s' →
        s.requestCount = s'.requestCount ∧
          s.successfulRequests = s'.successfulRequests ∧
          s.totalResponseTime = s'.totalResponseTime) := by
  refine ⟨aggregateUsers_get, ?_, fun _ _ _ h => aggregateAnon_fields h, ?_⟩
  · intro rows rows' h k
    rw [aggregateUsers_get, aggregateUsers_get]
    have hany := perm_any h (fun r => r.apiKey == k)
    have hW : sumWeight k rows = sumWeight k rows' := by
      unfold sumWeight
      exact ((h.filter _).map _).sum_eq
    have hS : sumSuccess k rows = sumSuccess k rows' := by
      unfold sumSuccess
      exact ((h.filter _).map _).sum_eq
    have hR : sumRT k rows = sumRT k rows' := by
      unfold sumRT
      exact ((h.filter _).map _).sum_eq
    rw [hany, hW, hS, hR]
  · intro rows rows' h b s s' hs hs'
    have h1 := aggregateAnon_fields hs
    have h2 := aggregateAnon_fields hs'
    have hW : anonW b rows = anonW b rows' := by
      unfold anonW
      exact ((h.filter _).map _).sum_eq
    have hS : anonS b rows = anonS b rows' := by
      unfold anonS
      exact ((h.filter _).map _).sum_eq
    have hR : anonRT b rows = anonRT b rows' := by
      unfold anonRT
      exact ((h.filter _).map _).sum_eq
    exact ⟨by rw [h1.1, h2.1, hW], by rw [h1.2.1, h2.2.1, hS], by rw [h1.2.2, h2.2.2, hR]⟩

/-- A concrete authenticated raw row for key `k1`, status 200. -/
def userRowA : UserRow :=
  { apiKey := "k1", statusCode := 200, requestCount := 2,
    avgResponseTime := 100, successCount := 1 }

/-- A concrete authenticated raw row for key `k1`, status 404. -/
def userRowB : UserRow :=
  { apiKey := "k1", statusCode := 404, requestCount := 3,
    avgResponseTime := 50, successCount := 0 }

/-- Witness for the amended claim C1, at concrete rows: the swapped row
order gives the same map entry for `k1`, and the characterised sums
evaluate on one-row and two-row inputs. -/
theorem agg_weight_conservation_amended_witness :
    mapGet (aggregateUsers [userRowA, userRowB]) "k1" =
      mapGet (aggregateUsers [userRowB, userRowA]) "k1" ∧
    anonW "anon_1" [anonRowA] = 1 ∧
    (⟨"anon_1", some "1.1.1.1", 2, 0, 1⟩ : AnonStats).requestCount =
      (⟨"anon_1", some "2.2.2.2", 2, 0, 1⟩ : AnonStats).requestCount := by
  have h := agg_weight_conservation_amended
  have hma : matchAnonKey "anon_1_200" = some "1" := rfl
  have hmb : matchAnonKey "anon_1_404" = some "1" := rfl
  have hget1 : mapGet (aggregateAnon [anonRowA]) "anon_1" =
      some ⟨"anon_1", some "1.1.1.1", 1, 0, 1⟩ := by
    simp [aggregateAnon, accumAnon, hma, mapGet, mapSet, orNull, anonRowA] <;> norm_num
  have hget2 : mapGet (aggregateAnon [anonRowA, anonRowB]) "anon_1" =
      some ⟨"anon_1", some "1.1.1.1", 2, 0, 1⟩ := by
    simp [aggregateAnon, accumAnon, hma, hmb, mapGet, mapSet, orNull, anonRowA, anonRowB] <;> norm_num
  have hget3 : mapGet (aggregateAnon [anonRowB, anonRowA]) "anon_1" =
      some ⟨"anon_1", some "2.2.2.2", 2, 0, 1⟩ := by
    simp [aggregateAnon, accumAnon, hma, hmb, mapGet, mapSet, orNull, anonRowA, anonRowB] <;> norm_num
  refine ⟨h.2.1 _ _ (List.Perm.swap _ _ _) "k1", ?_, ?_⟩
  · have h3 := (h.2.2.1 [anonRowA] "anon_1" _ hget1).1
    simpa using h3.symm
  · exact (h.2.2.2 [anonRowA, anonRowB] [anonRowB, anonRowA]
      (List.Perm.swap _ _ _) "anon_1" _ _ hget2 hget3).1

/-- The bucket-3 / status-200 row of the claim C3 example (weight 5). -/
def anonRow3a : AnonRow :=
  { indexKey := "anon_3_200", ipSample := "9.9.9.9", statusCode := 200,
    requestCount := 5, avgResponseTime := 100, successCount := 5 }

/-- The bucket-3 / status-404 row of the claim C3 example (weight 1). -/
def anonRow3b : AnonRow :=
  { indexKey := "anon_3_404", ipSample := "8.8.8.8", statusCode := 404,
    requestCount := 1, avgResponseTime := 50, successCount := 0 }

/-- The co-present bucket-30 row of the claim C3 example (weight 7). -/
def anonRow30 : AnonRow :=
  { indexKey := "anon_30_200", ipSample := "7.7.7.7", statusCode := 200,
    requestCount := 7, avgResponseTime := 10, successCount := 7 }

/-- Claim C3: the anonymous aggregation collapses all rows sharing a
bucket id into exactly one bucket entry (the map keys are unique); the
`anon_3_200` (weight 5) and `anon_3_404` (weight 1) rows collapse into
one bucket-3 entry with total 6, the co-present `anon_30_200` row stays a
separate entry; rows whose key does not match `anon_{digits}_` are
skipped silently. -/
theorem anon_bucket_collapse :
    (∀ rows : List AnonRow, ((aggregateAnon rows).map Prod.fst).Nodup) ∧
    mapGet (aggregateAnon [anonRow3a, anonRow3b, anonRow30]) "anon_3" =
      some ⟨"anon_3", some "9.9.9.9", 6, 550, 5⟩ ∧
    mapGet (aggregateAnon [anonRow3a, anonRow3b, anonRow30]) "anon_30" =
      some ⟨"anon_30", some "7.7.7.7", 7, 70, 7⟩ ∧
    (aggregateAnon [anonRow3a, anonRow3b, anonRow30]).length = 2 ∧
    (∀ (m : List (String × AnonStats)) (r : AnonRow),
      matchAnonKey r.indexKey = none → accumAnon m r = m) := by
  have hm3a : matchAnonKey "anon_3_200" = some "3" := rfl
  have hm3b : matchAnonKey "anon_3_404" = some "3" := rfl
  have hm30 : matchAnonKey "anon_30_200" = some "30" := rfl
  refine ⟨nodup_keys_aggregateAnon, ?_, ?_, ?_, ?_⟩
  · simp [aggregateAnon, accumAnon, hm3a, hm3b, hm30, mapGet, mapSet, orNull,
      anonRow3a, anonRow3b, anonRow30] <;> norm_num
  · simp [aggregateAnon, accumAnon, hm3a, hm3b, hm30, mapGet, mapSet, orNull,
      anonRow3a, anonRow3b, anonRow30] <;> norm_num
  · simp [aggregateAnon, accumAnon, hm3a, hm3b, hm30, mapGet, mapSet, orNull,
      anonRow3a, anonRow3b, anonRow30]
  · intro m r h
    simp [accumAnon, h]

/-- Witness for claim C3's skip clause, at a concrete non-matching row. -/
theorem anon_bucket_collapse_witness :
    matchAnonKey "key_abc123" = none ∧
    accumAnon []
      { indexKey := "key_abc123", ipSample := "3.3.3.3", statusCode := 200,
        requestCount := 4, avgResponseTime := 9, successCount := 4 } = [] := by
  have h := anon_bucket_collapse
  exact ⟨rfl, h.2.2.2.2 [] _ rfl⟩

/-- Every emitted `TopUser` arises by finalising an entry of the
aggregation map. -/
theorem getTopUsersPure_mem {lookup : String → Option Identity} {d : ℚ}
    {lim : Option ℤ} {rows : List UserRow} {u : TopUser}
    (hu : u ∈ getTopUsersPure lookup d lim rows) :
    ∃ p ∈ aggregateUsers rows, u = finalizeUser lookup d p := by
  unfold getTopUsersPure at hu
  rw [enrichLoop_eq] at hu
  rcases List.mem_map.mp hu with ⟨p, hp, he⟩
  exact ⟨p, (sortUsers_perm _).mem_iff.mp (jsSlice_subset _ _ _ hp), he.symm⟩

/-- Every emitted `TopAnonymousUser` arises by finalising an entry of the
bucket map. -/
theorem getTopAnonymousUsersPure_mem {d : ℚ} {lim : Option ℤ}
    {rows : List AnonRow} {a : TopAnonymousUser}
    (ha : a ∈ getTopAnonymousUsersPure d lim rows) :
    ∃ p ∈ aggregateAnon rows, a = finalizeAnon d p.2 := by
  unfold getTopAnonymousUsersPure at ha
  have hmem := (List.perm_insertionSort anonGe _).mem_iff.mp (jsSlice_subset _ _ _ ha)
  rcases List.mem_map.mp hmem with ⟨p, hp, he⟩
  exact ⟨p, hp, he.symm⟩

/-- JS division as the finalisation steps evaluate it: `none` models the
non-finite result of dividing by zero (`NaN` for `0/0`, `±Infinity`
otherwise), which `Math.round` and the further arithmetic propagate. -/
def jsDiv (a b : ℚ) : Option ℚ := if b = 0 then none else some (a / b)

/-- The `successRate` computation of the finalisation steps
(`Math.round((S / T) * 10000) / 100`) with JS division-by-zero
propagation: `none` is the `NaN` outcome. -/
def successRateJs (S T : ℚ) : Option ℚ := (jsDiv S T).map roundPct

/-- Strictly positive sample weight, success weight within `[0, weight]`. -/
def UserRowPos (r : UserRow) : Prop :=
  0 < r.requestCount ∧ 0 ≤ r.successCount ∧ r.successCount ≤ r.requestCount

/-- Strictly positive sample weight for an anonymous row. -/
def AnonRowPos (r : AnonRow) : Prop :=
  0 < r.requestCount ∧ 0 ≤ r.successCount ∧ r.successCount ≤ r.requestCount

/-- A raw row with zero sample weight on a fresh key. -/
def zeroUserRow : UserRow :=
  { apiKey := "k0", statusCode := 200, requestCount := 0,
    avgResponseTime := 0, successCount := 0 }

/-- Claim C5 (counterexample): the claim's row space admits zero-weight
rows (`sampleWeight` non-negative, `successWeight` in `[0, weight]`); a
single such row makes the aggregator emit an entity whose accumulated
totals are all 0, and the JS evaluation of its success rate,
`Math.round((0 / 0) * 10000) / 100`, is `NaN` — not a number between 0
and 100. -/
theorem success_rate_nan_counterexample :
    UserRowOk zeroUserRow ∧
    mapGet (aggregateUsers [zeroUserRow]) "k0" =
      some { totalRequests := 0, successfulRequests := 0, totalResponseTime := 0 } ∧
    (getTopUsersPure (fun _ => none) 3600 (some 10) [zeroUserRow]).map
      (fun u => u.apiKey) = ["k0"] ∧
    successRateJs 0 0 = none := by
  refine ⟨?_, ?_, ?_, rfl⟩
  · exact ⟨le_refl 0, le_refl 0, le_refl 0⟩
  · simp [aggregateUsers, accumUser, mapGet, mapSet, zeroUserRow]
  · simp [getTopUsersPure, aggregateUsers, accumUser, mapGet, mapSet, sortUsers,
      List.insertionSort, List.orderedInsert, jsSlice, enrichLoop, finalizeUser,
      jsRound, round2, roundPct, orNull, zeroUserRow] <;> norm_num

/-- Claim C5 (amended): whenever every raw row has strictly positive
sample weight and a success weight between 0 and the weight, every
emitted entity of either aggregator has a success rate between 0 and 100;
every accumulated entry then has a strictly positive total, so the JS
division never hits zero and agrees with the rational model; a key
appearing only with error statuses yields success rate 0, not an error.
(An all-zero-weight key instead yields the `NaN` of the counterexample.) -/
theorem success_rate_bound_amended :
    (∀ (lookup : String → Option Identity) (d : ℚ) (lim : Option ℤ)
      (rows : List UserRow), (∀ r ∈ rows, UserRowPos r) →
      ∀ u ∈ getTopUsersPure lookup d lim rows,
        0 ≤ u.successRate ∧ u.successRate ≤ 100) ∧
    (∀ (rows : List UserRow) (k : String) (s : UserStats),
      (∀ r ∈ rows, UserRowPos r) →
      mapGet (aggregateUsers rows) k = some s →
        0 < s.totalRequests ∧
        successRateJs s.successfulRequests s.totalRequests =
          some (roundPct (s.successfulRequests / s.totalRequests))) ∧
    (∀ (d : ℚ) (lim : Option ℤ) (rows : List AnonRow),
      (∀ r ∈ rows, AnonRowPos r) →
      ∀ a ∈ getTopAnonymousUsersPure d lim rows,
        0 ≤ a.successRate ∧ a.successRate ≤ 100) ∧
    (getTopUsersPure (fun _ => none) 3600 (some 10)
      [{ apiKey := "k1", statusCode := 500, requestCount := 3,
         avgResponseTime := 100, successCount := 0 }]).map
      (fun u => u.successRate) = [0] := by
  refine ⟨?_, ?_, ?_, ?_⟩
  · intro lookup d lim rows hrows u hu
    rcases getTopUsersPure_mem hu with ⟨p, hp, he⟩
    have hok : UserStatsOk p.2 :=
      foldl_accumUser_inv rows
        (fun r hr => ⟨(hrows r hr).1.le, (hrows r hr).2.1, (hrows r hr).2.2⟩)
        [] (by simp) p hp
    rw [he]
    simpa [finalizeUser] using successRate_bounds hok.1 hok.2
  · intro rows k s hrows hget
    rw [aggregateUsers_get] at hget
    by_cases hany : rows.any (fun r => r.apiKey == k) = true
    · rw [if_pos hany] at hget
      rcases List.any_eq_true.mp hany with ⟨r0, hr0, hr0k⟩
      have hr0f : r0 ∈ rows.filter (fun r => r.apiKey == k) :=
        List.mem_filter.mpr ⟨hr0, hr0k⟩
      have hpos : 0 < sumWeight k rows := by
        unfold sumWeight
        apply List.sum_pos
        · intro x hx
          rcases List.mem_map.mp hx with ⟨r, hr, he⟩
          exact he ▸ (hrows r (List.mem_filter.mp hr).1).1
        · exact List.ne_nil_of_mem (List.mem_map_of_mem (fun r => r.requestCount) hr0f)
      rw [← Option.some.inj hget]
      exact ⟨hpos, by simp [successRateJs, jsDiv, ne_of_gt hpos]⟩
    · rw [if_neg hany] at hget
      exact absurd hget (by simp)
  · intro d lim rows hrows a ha
    rcases getTopAnonymousUsersPure_mem ha with ⟨p, hp, he⟩
    have hok : AnonStatsOk p.2 :=
      foldl_accumAnon_inv rows
        (fun r hr => ⟨(hrows r hr).1.le, (hrows r hr).2.1, (hrows r hr).2.2⟩)
        [] (by simp) p hp
    rw [he]
    simpa [finalizeAnon] using successRate_bounds hok.1 hok.2
  · simp [getTopUsersPure, aggregateUsers, accumUser, mapGet, mapSet, sortUsers,
      List.insertionSort, List.orderedInsert, jsSlice, enrichLoop, finalizeUser,
      jsRound, round2, roundPct, orNull] <;> norm_num

/-- Witness for the amended claim C5, at a concrete one-row input with
weight 2 and success weight 1. -/
theorem success_rate_bound_amended_witness :
    0 ≤ ((getTopUsersPure (fun _ => none) 3600 (some 10) [userRowA]).headI).successRate ∧
    successRateJs 1 2 = some 50 := by
  have hout : getTopUsersPure (fun _ => none) 3600 (some 10) [userRowA] =
      [{ apiKey := "k1", name := none, email := none, organization := none,
         requestCount := 2, requestsPerSecond := 0,
         avgResponseTime := 100, successRate := 50 }] := by
    simp [getTopUsersPure, aggregateUsers, accumUser, mapGet, mapSet, sortUsers,
      List.insertionSort, List.orderedInsert, jsSlice, enrichLoop, finalizeUser,
      jsRound, round2, roundPct, orNull, userRowA] <;> norm_num
  have hrowsPos : ∀ r ∈ [userRowA], UserRowPos r := by
    intro r hr
    simp at hr
    subst hr
    simp [UserRowPos, userRowA] <;> norm_num
  constructor
  · exact (success_rate_bound_amended.1 (fun _ => none) 3600 (some 10) [userRowA]
      hrowsPos
      ((getTopUsersPure (fun _ => none) 3600 (some 10) [userRowA]).headI)
      (by rw [hout]; simp)).1
  · have hget : mapGet (aggregateUsers [userRowA]) "k1" =
        some { totalRequests := 2, successfulRequests := 1, totalResponseTime := 200 } := by
      simp [aggregateUsers, accumUser, mapGet, mapSet, userRowA] <;> norm_num
    have h2 := (success_rate_bound_amended.2.1 [userRowA] "k1"
      { totalRequests := 2, successfulRequests := 1, totalResponseTime := 200 }
      hrowsPos hget).2
    rw [show successRateJs 1 2 =
        successRateJs
          ({ totalRequests := 2, successfulRequests := 1, totalResponseTime := 200 } :
            UserStats).successfulRequests
          ({ totalRequests := 2, successfulRequests := 1, totalResponseTime := 200 } :
            UserStats).totalRequests from rfl, h2]
    norm_num [roundPct, jsRound]

/-- Claim C6 (counterexample): the aggregator does emit an entity with
`totalRequests = 0` — a zero-weight row on a fresh key creates a map
entry and no guard filters it out before finalisation, whose averages
divide by the zero total. -/
theorem zero_weight_emission_counterexample :
    (getTopUsersPure (fun _ => none) 3600 (some 10) [zeroUserRow]).map
      (fun u => u.requestCount) = [0] := by
  simp [getTopUsersPure, aggregateUsers, accumUser, mapGet, mapSet, sortUsers,
    List.insertionSort, List.orderedInsert, jsSlice, enrichLoop, finalizeUser,
    jsRound, round2, roundPct, orNull, zeroUserRow] <;> norm_num

/-- Claim C6 (amended): a zero-weight row does not crash the accumulator
and leaves the totals of an already-present key unchanged, but on a fresh
key it creates an entry, and the aggregator then emits an entity with
`totalRequests = 0`; the averages of an emitted entity are computed
unconditionally (here over `ℚ`, where division by the zero total yields
0, standing in for the JS `NaN`). -/
theorem zero_weight_amended :
    (∀ (m : List (String × UserStats)) (r : UserRow) (s : UserStats),
      r.requestCount = 0 → r.successCount = 0 →
      mapGet m r.apiKey = some s → accumUser m r = m) ∧
    (getTopUsersPure (fun _ => none) 3600 (some 10) [zeroUserRow]).length = 1 ∧
    getTopUsersPure (fun _ => none) 3600 (some 10) [zeroUserRow] =
      [{ apiKey := "k0", name := none, email := none, organization := none,
         requestCount := 0, requestsPerSecond := 0,
         avgResponseTime := 0, successRate := 0 }] := by
  refine ⟨?_, ?_, ?_⟩
  · intro m r s h0 hs hget
    simp only [accumUser, hget]
    have hrec : ({ totalRequests := s.totalRequests + r.requestCount
                   successfulRequests := s.successfulRequests + r.successCount
                   totalResponseTime := s.totalResponseTime + r.avgResponseTime * r.requestCount } :
        UserStats) = s := by
      rcases s with ⟨a, b, c⟩
      simp [h0, hs]
    rw [hrec]
    exact mapSet_eq_self hget
  · simp [getTopUsersPure, aggregateUsers, accumUser, mapGet, mapSet, sortUsers,
      List.insertionSort, List.orderedInsert, jsSlice, enrichLoop, finalizeUser,
      jsRound, round2, roundPct, orNull, zeroUserRow] <;> norm_num
  · simp [getTopUsersPure, aggregateUsers, accumUser, mapGet, mapSet, sortUsers,
      List.insertionSort, List.orderedInsert, jsSlice, enrichLoop, finalizeUser,
      jsRound, round2, roundPct, orNull, zeroUserRow] <;> norm_num

/-- Witness for the amended claim C6: the zero-weight row leaves a
concrete one-entry map unchanged. -/
theorem zero_weight_amended_witness :
    accumUser [("k0", ⟨5, 2, 7⟩)] zeroUserRow = [("k0", ⟨5, 2, 7⟩)] :=
  zero_weight_amended.1 [("k0", ⟨5, 2, 7⟩)] zeroUserRow ⟨5, 2, 7⟩ rfl rfl rfl

instance : IsTotal (String × UserStats) userGe :=
  ⟨fun a b => le_total b.2.totalRequests a.2.totalRequests⟩

instance : IsTrans (String × UserStats) userGe :=
  ⟨fun _ _ _ h1 h2 => le_trans h2 h1⟩

/-- The 15 distinct-key rows of the limit/truncation example, with
weights 1..15. -/
def rows15 : List UserRow :=
  [{ apiKey := "u1", statusCode := 200, requestCount := 1, avgResponseTime := 0, successCount := 0 },
   { apiKey := "u2", statusCode := 200, requestCount := 2, avgResponseTime := 0, successCount := 0 },
   { apiKey := "u3", statusCode := 200, requestCount := 3, avgResponseTime := 0, successCount := 0 },
   { apiKey := "u4", statusCode := 200, requestCount := 4, avgResponseTime := 0, successCount := 0 },
   { apiKey := "u5", statusCode := 200, requestCount := 5, avgResponseTime := 0, successCount := 0 },
   { apiKey := "u6", statusCode := 200, requestCount := 6, avgResponseTime := 0, successCount := 0 },
   { apiKey := "u7", statusCode := 200, requestCount := 7, avgResponseTime := 0, successCount := 0 },
   { apiKey := "u8", statusCode := 200, requestCount := 8, avgResponseTime := 0, successCount := 0 },
   { apiKey := "u9", statusCode := 200, requestCount := 9, avgResponseTime := 0, successCount := 0 },
   { apiKey := "u10", statusCode := 200, requestCount := 10, avgResponseTime := 0, successCount := 0 },
   { apiKey := "u11", statusCode := 200, requestCount := 11, avgResponseTime := 0, successCount := 0 },
   { apiKey := "u12", statusCode := 200, requestCount := 12, avgResponseTime := 0, successCount := 0 },
   { apiKey := "u13", statusCode := 200, requestCount := 13, avgResponseTime := 0, successCount := 0 },
   { apiKey := "u14", statusCode := 200, requestCount := 14, avgResponseTime := 0, successCount := 0 },
   { apiKey := "u15", statusCode := 200, requestCount := 15, avgResponseTime := 0, successCount := 0 }]

/-- The output entity of a `rows15` key with weight `w`, as finalised. -/
def plainTop (k : String) (w : ℤ) : TopUser :=
  { apiKey := k, name := none, email := none, organization := none,
    requestCount := w, requestsPerSecond := 0, avgResponseTime := 0, successRate := 0 }

/-- Claim C7: after aggregation the entities are sorted descending by raw
`totalRequests` (strictly so when the totals are pairwise distinct) and
exactly the top `limit` are retained; the identity-enrichment lookups run
only on the already-truncated list; with 15 entities and `limit = 10`,
exactly the 10 highest-total entities come back, sorted descending. -/
theorem ranking_truncation_enrichment :
    (∀ rows : List UserRow, (sortUsers (aggregateUsers rows)).Sorted userGe) ∧
    (∀ rows : List UserRow,
      (aggregateUsers rows).Pairwise (fun p q => p.2.totalRequests ≠ q.2.totalRequests) →
      (sortUsers (aggregateUsers rows)).Sorted
        (fun p q => q.2.totalRequests < p.2.totalRequests)) ∧
    (∀ rows : List UserRow, (sortUsers (aggregateUsers rows)).Perm (aggregateUsers rows)) ∧
    (∀ (rows : List UserRow) (n : ℤ), 0 ≤ n →
      jsSlice (some n) (sortUsers (aggregateUsers rows)) =
        (sortUsers (aggregateUsers rows)).take n.toNat ∧
      (jsSlice (some n) (sortUsers (aggregateUsers rows))).length =
        min n.toNat (aggregateUsers rows).length) ∧
    (∀ (rows : List UserRow) (n : ℕ) (p q : String × UserStats),
      p ∈ (sortUsers (aggregateUsers rows)).take n →
      q ∈ (sortUsers (aggregateUsers rows)).drop n →
      q.2.totalRequests ≤ p.2.totalRequests) ∧
    (∀ (lookup : String → Option Identity) (d : ℚ) (lim : Option ℤ) (rows : List UserRow),
      getTopUsersPure lookup d lim rows =
        (jsSlice lim (sortUsers (aggregateUsers rows))).map (finalizeUser lookup d) ∧
      lookupCalls lookup d lim rows =
        (jsSlice lim (sortUsers (aggregateUsers rows))).map Prod.fst) ∧
    (∀ (lookup : String → Option Identity) (d : ℚ) (rows : List UserRow) (n : ℤ),
      0 ≤ n → (lookupCalls lookup d (some n) rows).length ≤ n.toNat) ∧
    getTopUsersPure (fun _ => none) 3600 (some 10) rows15 =
      [plainTop "u15" 15, plainTop "u14" 14, plainTop "u13" 13, plainTop "u12" 12,
       plainTop "u11" 11, plainTop "u10" 10, plainTop "u9" 9, plainTop "u8" 8,
       plainTop "u7" 7, plainTop "u6" 6] := by
  have hsorted : ∀ rows : List UserRow, (sortUsers (aggregateUsers rows)).Sorted userGe :=
    fun rows => List.sorted_insertionSort userGe _
  have hperm : ∀ rows : List UserRow,
      (sortUsers (aggregateUsers rows)).Perm (aggregateUsers rows) :=
    fun rows => sortUsers_perm _
  have hslice : ∀ (rows : List UserRow) (n : ℤ), 0 ≤ n →
      jsSlice (some n) (sortUsers (aggregateUsers rows)) =
        (sortUsers (aggregateUsers rows)).take n.toNat := by
    intro rows n hn
    simp [jsSlice, not_lt.mpr hn]
  refine ⟨hsorted, ?_, hperm, ?_, ?_, ?_, ?_, ?_⟩
  · intro rows hpw
    have hpw' : (sortUsers (aggregateUsers rows)).Pairwise
        (fun p q => p.2.totalRequests ≠ q.2.totalRequests) :=
      ((hperm rows).pairwise_iff (fun h => h.symm)).mpr hpw
    exact ((hsorted rows).and hpw').imp
      (fun h => lt_of_le_of_ne h.1 (Ne.symm h.2))
  · intro rows n hn
    refine ⟨hslice rows n hn, ?_⟩
    rw [hslice rows n hn, List.length_take, (hperm rows).length_eq]
  · intro rows n p q hp hq
    have hpw : (sortUsers (aggregateUsers rows)).Pairwise userGe := hsorted rows
    rw [← List.take_append_drop n (sortUsers (aggregateUsers rows))] at hpw
    exact (List.pairwise_append.mp hpw).2.2 p hp q hq
  · intro lookup d lim rows
    constructor
    · unfold getTopUsersPure
      rw [enrichLoop_eq]
    · unfold lookupCalls
      rw [enrichLoop_eq]
  · intro lookup d rows n hn
    unfold lookupCalls
    rw [enrichLoop_eq]
    simp only [List.length_map]
    rw [hslice rows n hn, List.length_take]
    exact min_le_left _ _
  · simp [getTopUsersPure, aggregateUsers, accumUser, mapGet, mapSet, sortUsers,
      List.insertionSort, List.orderedInsert, userGe, jsSlice, enrichLoop, finalizeUser,
      jsRound, round2, roundPct, orNull, rows15, plainTop] <;> norm_num

/-- A concrete authenticated raw row for key `k2` with weight 5. -/
def userRowC : UserRow :=
  { apiKey := "k2", statusCode := 200, requestCount := 5,
    avgResponseTime := 10, successCount := 4 }

/-- Witness for claim C7, on a concrete two-entity input with distinct
totals (5 for `k2`, 2 for `k1`) and `limit = 1`. -/
theorem ranking_truncation_enrichment_witness :
    (sortUsers (aggregateUsers [userRowA, userRowC])).Sorted
      (fun p q => q.2.totalRequests < p.2.totalRequests) ∧
    jsSlice (some 1) (sortUsers (aggregateUsers [userRowA, userRowC])) =
      (sortUsers (aggregateUsers [userRowA, userRowC])).take (1 : ℤ).toNat ∧
    ((⟨2, 1, 200⟩ : UserStats)).totalRequests ≤ ((⟨5, 4, 50⟩ : UserStats)).totalRequests ∧
    (lookupCalls (fun _ => none) 3600 (some 1) [userRowA, userRowC]).length ≤ (1 : ℤ).toNat := by
  have h := ranking_truncation_enrichment
  have hagg : aggregateUsers [userRowA, userRowC] =
      [("k1", ⟨2, 1, 200⟩), ("k2", ⟨5, 4, 50⟩)] := by
    simp [aggregateUsers, accumUser, mapGet, mapSet, userRowA, userRowC] <;> norm_num
  have hsort : sortUsers (aggregateUsers [userRowA, userRowC]) =
      [("k2", ⟨5, 4, 50⟩), ("k1", ⟨2, 1, 200⟩)] := by
    rw [hagg]
    simp [sortUsers, List.insertionSort, List.orderedInsert, userGe] <;> norm_num
  refine ⟨h.2.1 [userRowA, userRowC] ?_, (h.2.2.2.1 [userRowA, userRowC] 1 (by norm_num)).1, ?_, ?_⟩
  · rw [hagg]
    norm_num
  · exact h.2.2.2.2.1 [userRowA, userRowC] (1 : ℤ).toNat ("k2", ⟨5, 4, 50⟩)
      ("k1", ⟨2, 1, 200⟩) (by rw [hsort]; simp) (by rw [hsort]; simp)
  · exact h.2.2.2.2.2.2.1 (fun _ => none) 3600 [userRowA, userRowC] 1 (by norm_num)

/-- A store oracle whose every query succeeds with no rows and whose D1
table is empty. -/
def emptyStore : Store :=
  { lookup := fun _ => none, userRows := .ok [], anonRows := .ok [],
    timelineRows := .ok [], userStatusRows := .ok [], anonStatusRows := .ok [],
    userTimelineRows := .ok [], anonTimelineRows := .ok [] }

/-- Claim C8 (counterexample): a caller-supplied bucket identifier that
does not match `anon_{digits}` is rejected before any store query, but
the thrown `Invalid bucket format` lands in the router's catch-all and
surfaces as a 500 `Internal server error` response, not a 400. -/
theorem invalid_bucket_status_counterexample :
    handleApiRequest emptyStore
      ⟨"/api/anonymous-timeline", none, none, none, some "garbage"⟩ =
      ⟨500, .errorBody "Internal server error" (some "Invalid bucket format"), 0⟩ ∧
    (handleApiRequest emptyStore
      ⟨"/api/anonymous-timeline", none, none, none, some "garbage"⟩).status ≠ 400 :=
  ⟨rfl, by simp [handleApiRequest, emptyStore, parseBucketNum, jsParseInt, jsOrDefault]⟩

/-- Claim C8 (amended): a non-empty invalid `period` and a missing
required `apiKey`/`bucket` parameter (absent, or present but empty — JS
falsiness) are rejected with a 400 response before any store query is
issued; an empty `period` parameter is not rejected but falls back to the
`hour` default; a non-empty malformed bucket identifier is likewise
rejected before any store query is issued, but produces a 500 response
through the router's catch-all rather than a 400. -/
theorem request_validation_amended :
    (∀ (store : Store) (path : String) (lp ap bp : Option String) (p : String),
      p ≠ "hour" → p ≠ "day" → p ≠ "" →
      handleApiRequest store ⟨path, some p, lp, ap, bp⟩ =
        ⟨400, .errorBody "Invalid period. Use \"hour\" or \"day\"." none, 0⟩) ∧
    (∀ (store : Store) (path : String) (lp ap bp : Option String),
      handleApiRequest store ⟨path, some "", lp, ap, bp⟩ =
        handleApiRequest store ⟨path, none, lp, ap, bp⟩) ∧
    (∀ (store : Store) (lp bp : Option String),
      handleApiRequest store ⟨"/api/user-status-breakdown", none, lp, none, bp⟩ =
        ⟨400, .errorBody "apiKey parameter is required" none, 0⟩ ∧
      handleApiRequest store ⟨"/api/user-status-breakdown", none, lp, some "", bp⟩ =
        ⟨400, .errorBody "apiKey parameter is required" none, 0⟩ ∧
      handleApiRequest store ⟨"/api/user-timeline", none, lp, none, bp⟩ =
        ⟨400, .errorBody "apiKey parameter is required" none, 0⟩ ∧
      handleApiRequest store ⟨"/api/user-timeline", none, lp, some "", bp⟩ =
        ⟨400, .errorBody "apiKey parameter is required" none, 0⟩) ∧
    (∀ (store : Store) (lp ap : Option String) (bp : Option String),
      bp = none ∨ bp = some "" →
      handleApiRequest store ⟨"/api/anonymous-status-breakdown", none, lp, ap, bp⟩ =
        ⟨400, .errorBody "bucket parameter is required" none, 0⟩ ∧
      handleApiRequest store ⟨"/api/anonymous-timeline", none, lp, ap, bp⟩ =
        ⟨400, .errorBody "bucket parameter is required" none, 0⟩) ∧
    (∀ (store : Store) (lp ap : Option String) (b : String),
      parseBucketNum b = none → b ≠ "" →
      handleApiRequest store ⟨"/api/anonymous-status-breakdown", none, lp, ap, some b⟩ =
        ⟨500, .errorBody "Internal server error" (some "Invalid bucket format"), 0⟩ ∧
      handleApiRequest store ⟨"/api/anonymous-timeline", none, lp, ap, some b⟩ =
        ⟨500, .errorBody "Internal server error" (some "Invalid bucket format"), 0⟩) := by
  refine ⟨?_, ?_, ?_, ?_, ?_⟩
  · intro store path lp ap bp p h1 h2 h3
    simp [handleApiRequest, jsOrDefault, h1, h2, h3]
  · intro store path lp ap bp
    rfl
  · intro store lp bp
    refine ⟨?_, ?_, ?_, ?_⟩ <;> simp [handleApiRequest, jsOrDefault]
  · intro store lp ap bp hbp
    rcases hbp with h | h <;> subst h <;>
      exact ⟨by simp [handleApiRequest, jsOrDefault], by simp [handleApiRequest, jsOrDefault]⟩
  · intro store lp ap b hb hbne
    constructor <;> simp [handleApiRequest, jsOrDefault, hb, hbne]

/-- Witness for the amended claim C8, at concrete requests against the
empty store. -/
theorem request_validation_amended_witness :
    handleApiRequest emptyStore ⟨"/api/top-users", some "week", none, none, none⟩ =
      ⟨400, .errorBody "Invalid period. Use \"hour\" or \"day\"." none, 0⟩ ∧
    handleApiRequest emptyStore ⟨"/api/user-status-breakdown", none, none, none, none⟩ =
      ⟨400, .errorBody "apiKey parameter is required" none, 0⟩ ∧
    handleApiRequest emptyStore ⟨"/api/anonymous-timeline", none, none, none, some ""⟩ =
      ⟨400, .errorBody "bucket parameter is required" none, 0⟩ ∧
    handleApiRequest emptyStore ⟨"/api/anonymous-status-breakdown", none, none, none, some "anon_x"⟩ =
      ⟨500, .errorBody "Internal server error" (some "Invalid bucket format"), 0⟩ := by
  have h := request_validation_amended
  exact ⟨h.1 emptyStore _ none none none "week" (by decide) (by decide) (by decide),
    (h.2.2.1 emptyStore none none).1,
    (h.2.2.2.1 emptyStore none none (some "") (Or.inr rfl)).2,
    (h.2.2.2.2 emptyStore none none "anon_x" rfl (by decide)).1⟩

/-- Claim C9: an unsuccessful per-entity identity lookup is recovered
locally — the entity keeps `null` identity fields — and enrichment never
changes which entities come back or fails the response; only a store
query failure fails the request. -/
theorem lookup_failure_recovered :
    (∀ (lookup : String → Option Identity) (d : ℚ) (p : String × UserStats),
      lookup p.1 = none →
        (finalizeUser lookup d p).name = none ∧
        (finalizeUser lookup d p).email = none ∧
        (finalizeUser lookup d p).organization = none) ∧
    (∀ (lookup : String → Option Identity) (urows : List UserRow)
      (arows : List AnonRow) (trows : List TimelineRow)
      (usr asr : List StatusRow) (utr atr : List FacetRow),
      (handleApiRequest
        ⟨lookup, .ok urows, .ok arows, .ok trows, .ok usr, .ok asr, .ok utr, .ok atr⟩
        ⟨"/api/top-users", none, none, none, none⟩).status = 200) ∧
    (∀ (lookup lookup' : String → Option Identity) (d : ℚ) (lim : Option ℤ)
      (rows : List UserRow),
      (getTopUsersPure lookup d lim rows).map (fun u => u.apiKey) =
        (getTopUsersPure lookup' d lim rows).map (fun u => u.apiKey) ∧
      (getTopUsersPure lookup d lim rows).length =
        (getTopUsersPure lookup' d lim rows).length) ∧
    (∀ (lookup : String → Option Identity) (e : String)
      (arows : List AnonRow) (trows : List TimelineRow)
      (usr asr : List StatusRow) (utr atr : List FacetRow),
      (handleApiRequest
        ⟨lookup, .error e, .ok arows, .ok trows, .ok usr, .ok asr, .ok utr, .ok atr⟩
        ⟨"/api/top-users", none, none, none, none⟩).status = 500) := by
  refine ⟨?_, ?_, ?_, ?_⟩
  · intro lookup d p h
    simp [finalizeUser, h]
  · intro lookup urows arows trows usr asr utr atr
    rfl
  · intro lookup lookup' d lim rows
    constructor
    · unfold getTopUsersPure
      rw [enrichLoop_eq, enrichLoop_eq]
      simp [finalizeUser]
    · unfold getTopUsersPure
      rw [enrichLoop_eq, enrichLoop_eq]
      simp
  · intro lookup e arows trows usr asr utr atr
    rfl

/-- Witness for claim C9: the lookup that finds nothing leaves all three
identity fields `null` on a concrete finalised entity. -/
theorem lookup_failure_recovered_witness :
    (finalizeUser (fun _ => none) 3600 ("k1", ⟨2, 1, 200⟩)).name = none ∧
    (finalizeUser (fun _ => none) 3600 ("k1", ⟨2, 1, 200⟩)).email = none ∧
    (finalizeUser (fun _ => none) 3600 ("k1", ⟨2, 1, 200⟩)).organization = none :=
  lookup_failure_recovered.1 (fun _ => none) 3600 ("k1", ⟨2, 1, 200⟩) rfl

end OA
